import Mathlib

/-!
Verification development for the Firestarter host-side protocol client
(`firestarter/main.py`).  The definitions below are a shallow embedding of
the functions of that file: byte strings are `List Nat` (one `Nat` per
byte), Python strings of tag kinds are Lean `String`s, wall-clock instants
are `Nat` time units, and the serial device is replaced by an explicit
script of timed reads (for the byte-level wait loop) or of response events
(for the command-level functions built on top of it).
-/

namespace Firestarter

/-- Byte values of an ASCII string literal, used to write concrete byte
lines and expected messages. -/
def asciiBytes (s : String) : List Nat :=
  s.toList.map Char.toNat

/-- Embedding of `read_filterd_bytes`: keep only printable ASCII bytes
(32..126); the Python function returns `None` when nothing is left, which
the callers treat the same as an empty string. -/
def read_filterd_bytes (byte_array : List Nat) : Option (List Nat) :=
  let res := byte_array.filter (fun b => 32 ≤ b && b ≤ 126)
  if res.isEmpty then none else some res

/-- The tag `"OK:"` as bytes. -/
def tagOK : List Nat := asciiBytes "OK:"

/-- The tag `"WARN:"` as bytes. -/
def tagWARN : List Nat := asciiBytes "WARN:"

/-- The tag `"ERROR:"` as bytes. -/
def tagERROR : List Nat := asciiBytes "ERROR:"

/-- The tag `"DATA:"` as bytes. -/
def tagDATA : List Nat := asciiBytes "DATA:"

/-- The tag `"INFO:"` as bytes. -/
def tagINFO : List Nat := asciiBytes "INFO:"

/-- Embedding of the Python substring test `needle in hay`. -/
def containsTag (hay needle : List Nat) : Bool :=
  (List.range (hay.length + 1)).any (fun i => needle.isPrefixOf (hay.drop i))

/-- Embedding of `hay.rfind(needle)`: the largest index at which `needle`
occurs, `none` when it does not occur (Python returns `-1` there; in
`wait_for_response` it is only called after the containment test). -/
def rfindTag (hay needle : List Nat) : Option Nat :=
  ((List.range (hay.length + 1)).filter
    (fun i => needle.isPrefixOf (hay.drop i))).getLast?

/-- Embedding of `str.strip()` on a filtered line: after
`read_filterd_bytes` the only whitespace byte that can remain is the space
(32), so stripping removes leading and trailing spaces. -/
def trimAscii (l : List Nat) : List Nat :=
  ((l.dropWhile (fun b => b == 32)).reverse.dropWhile (fun b => b == 32)).reverse

/-- `res[res.rfind(tag):][k:].strip()` — the message carried after the last
occurrence of a tag, with `k` the tag's length. -/
def tagMsg (res needle : List Nat) (k : Nat) : List Nat :=
  trimAscii ((res.drop ((rfindTag res needle).getD 0)).drop k)

/-- Embedding of `wait_for_response`.  The serial input is a script of
timed reads: each entry `(t, bytes)` is one `ser.readline()` result
together with the value of `time.time()` at that iteration (the two
`time.time()` calls inside one iteration are identified).  `timeout` is
the running inactivity deadline variable of the Python code, initialised
by the caller with the loop's start time.  An exhausted script models the
device going permanently silent: `readline` then keeps returning empty
byte strings, nothing resets the deadline any more, and the loop ends in
the `return "ERROR", "Timeout"` branch, which the `[]` case returns
directly.  Mirroring the source, the deadline is reset by every non-empty
filtered line (the `timeout = time.time()` statement is guarded only by
`if res and len(res) > 0`), and the timeout check runs after each read. -/
def wait_for_response (timeout : Nat) :
    List (Nat × List Nat) → String × List Nat
  | [] => ("ERROR", asciiBytes "Timeout")
  | (t, bytes) :: rest =>
    match read_filterd_bytes bytes with
    | some res =>
      if containsTag res tagOK then ("OK", tagMsg res tagOK 3)
      else if containsTag res tagWARN then ("WARN", tagMsg res tagWARN 5)
      else if containsTag res tagERROR then ("ERROR", tagMsg res tagERROR 6)
      else if containsTag res tagDATA then ("DATA", tagMsg res tagDATA 5)
      else
        if t + 5 < t then ("ERROR", asciiBytes "Timeout")
        else wait_for_response t rest
    | none =>
      if timeout + 5 < t then ("ERROR", asciiBytes "Timeout")
      else wait_for_response timeout rest

/-- One step of the wait loop on a read whose filtered content is
non-empty: the branch structure of the source, with the dead
post-reset timeout check (`t + 5 < t`) already discharged. -/
lemma wait_for_response_cons_some (timeout t : Nat) (bytes : List Nat)
    (rest : List (Nat × List Nat)) (res : List Nat)
    (h : read_filterd_bytes bytes = some res) :
    wait_for_response timeout ((t, bytes) :: rest) =
      (if containsTag res tagOK then ("OK", tagMsg res tagOK 3)
       else if containsTag res tagWARN then ("WARN", tagMsg res tagWARN 5)
       else if containsTag res tagERROR then ("ERROR", tagMsg res tagERROR 6)
       else if containsTag res tagDATA then ("DATA", tagMsg res tagDATA 5)
       else wait_for_response t rest) := by
  have hx : ¬ (t + 5 < t) := by omega
  simp only [wait_for_response, h, if_neg hx]

/-- One step of the wait loop on a read with no printable content: the
inactivity deadline is not reset, only checked. -/
lemma wait_for_response_cons_none (timeout t : Nat) (bytes : List Nat)
    (rest : List (Nat × List Nat))
    (h : read_filterd_bytes bytes = none) :
    wait_for_response timeout ((t, bytes) :: rest) =
      (if timeout + 5 < t then ("ERROR", asciiBytes "Timeout")
       else wait_for_response timeout rest) := by
  simp only [wait_for_response, h]

/-- The last element of a filtered range is a maximal witness of the
predicate below the bound. -/
lemma filter_range_getLast_max (P : Nat → Bool) :
    ∀ n i, ((List.range n).filter P).getLast? = some i →
      P i = true ∧ ∀ j < n, P j = true → j ≤ i := by
  intro n
  induction n with
  | zero => intro i h; simp at h
  | succ n ih =>
    intro i h
    rw [List.range_succ, List.filter_append] at h
    by_cases hP : P n = true
    · rw [show List.filter P [n] = [n] by simp [hP]] at h
      rw [List.getLast?_concat] at h
      obtain rfl : n = i := by simpa using h
      exact ⟨hP, fun j hj _ => by omega⟩
    · rw [show List.filter P [n] = [] by simp [hP]] at h
      rw [List.append_nil] at h
      obtain ⟨h1, h2⟩ := ih i h
      refine ⟨h1, fun j hj hPj => ?_⟩
      rcases Nat.lt_succ_iff_lt_or_eq.mp hj with hlt | rfl
      · exact h2 j hlt hPj
      · exact absurd hPj hP

/-- When a tag occurs in a line, `rfind` returns some index. -/
lemma rfindTag_isSome (hay needle : List Nat)
    (h : containsTag hay needle = true) :
    ∃ i, rfindTag hay needle = some i := by
  unfold containsTag at h
  unfold rfindTag
  rw [List.any_eq_true] at h
  obtain ⟨i, hi, hpre⟩ := h
  have hne : (List.range (hay.length + 1)).filter
      (fun i => needle.isPrefixOf (hay.drop i)) ≠ [] := by
    intro hnil
    have := List.filter_eq_nil_iff.mp hnil i hi
    simp [hpre] at this
  rcases List.getLast?_isSome.mpr hne |> Option.isSome_iff_exists.mp with ⟨i', hi'⟩
  exact ⟨i', hi'⟩

/-- The index `rfind` returns carries the tag, and every index carrying
the tag is at most it: it is the last occurrence.  (For a non-empty
needle an occurrence index is automatically at most `hay.length`.) -/
lemma rfindTag_spec (hay needle : List Nat) (hne : needle ≠ []) (i : Nat)
    (h : rfindTag hay needle = some i) :
    needle.isPrefixOf (hay.drop i) = true ∧
      ∀ j, needle.isPrefixOf (hay.drop j) = true → j ≤ i := by
  unfold rfindTag at h
  obtain ⟨h1, h2⟩ := filter_range_getLast_max _ _ _ h
  refine ⟨h1, fun j hj => ?_⟩
  by_cases hjle : j < hay.length + 1
  · exact h2 j hjle hj
  · exfalso
    have hdrop : hay.drop j = [] := by
      apply List.drop_eq_nil_of_le; omega
    rw [hdrop] at hj
    cases needle with
    | nil => exact hne rfl
    | cons a l => simp [List.isPrefixOf] at hj

/-- The four terminal tags with their returned kind string and the length
dropped from the matched suffix (`msg[3:]`, `msg[5:]`, `msg[6:]`, `msg[5:]`
in the source). -/
def terminalTags : List (List Nat × String × Nat) :=
  [(tagOK, ("OK", 3)), (tagWARN, ("WARN", 5)),
   (tagERROR, ("ERROR", 6)), (tagDATA, ("DATA", 5))]

/-- C8: for an input line whose filtered content contains occurrences of
exactly one terminal tag kind `T` (possibly several occurrences, possibly
preceded and followed by other text), `wait_for_response` returns the pair
of `T`'s kind and the space-trimmed text following the *last* occurrence
of the tag in the line. -/
theorem wait_for_response_single_tag (timeout t : Nat) (bytes : List Nat)
    (rest : List (Nat × List Nat)) (res : List Nat)
    (tg : List Nat × String × Nat)
    (htg : tg ∈ terminalTags)
    (hres : read_filterd_bytes bytes = some res)
    (hcontains : containsTag res tg.1 = true)
    (honly : ∀ other ∈ [tagOK, tagWARN, tagERROR, tagDATA],
      other ≠ tg.1 → containsTag res other = false) :
    ∃ i, wait_for_response timeout ((t, bytes) :: rest) =
        (tg.2.1, trimAscii ((res.drop i).drop tg.2.2)) ∧
      tg.1.isPrefixOf (res.drop i) = true ∧
      ∀ j, tg.1.isPrefixOf (res.drop j) = true → j ≤ i := by
  rw [wait_for_response_cons_some timeout t bytes rest res hres]
  simp only [terminalTags, List.mem_cons, List.not_mem_nil, or_false] at htg
  rcases htg with rfl | rfl | rfl | rfl
  · obtain ⟨i, hi⟩ := rfindTag_isSome res tagOK hcontains
    obtain ⟨hpre, hmax⟩ := rfindTag_spec res tagOK (by decide) i hi
    refine ⟨i, ?_, hpre, hmax⟩
    simp only at hcontains
    simp [hcontains, tagMsg, hi]
  · have hnOK : containsTag res tagOK = false :=
      honly tagOK (by simp) (by decide)
    obtain ⟨i, hi⟩ := rfindTag_isSome res tagWARN hcontains
    obtain ⟨hpre, hmax⟩ := rfindTag_spec res tagWARN (by decide) i hi
    refine ⟨i, ?_, hpre, hmax⟩
    simp only at hcontains
    simp [hnOK, hcontains, tagMsg, hi]
  · have hnOK : containsTag res tagOK = false :=
      honly tagOK (by simp) (by decide)
    have hnWARN : containsTag res tagWARN = false :=
      honly tagWARN (by simp) (by decide)
    obtain ⟨i, hi⟩ := rfindTag_isSome res tagERROR hcontains
    obtain ⟨hpre, hmax⟩ := rfindTag_spec res tagERROR (by decide) i hi
    refine ⟨i, ?_, hpre, hmax⟩
    simp only at hcontains
    simp [hnOK, hnWARN, hcontains, tagMsg, hi]
  · have hnOK : containsTag res tagOK = false :=
      honly tagOK (by simp) (by decide)
    have hnWARN : containsTag res tagWARN = false :=
      honly tagWARN (by simp) (by decide)
    have hnERROR : containsTag res tagERROR = false :=
      honly tagERROR (by simp) (by decide)
    obtain ⟨i, hi⟩ := rfindTag_isSome res tagDATA hcontains
    obtain ⟨hpre, hmax⟩ := rfindTag_spec res tagDATA (by decide) i hi
    refine ⟨i, ?_, hpre, hmax⟩
    simp only at hcontains
    simp [hnOK, hnWARN, hnERROR, hcontains, tagMsg, hi]

/-- Witness for `wait_for_response_single_tag` on a concrete line in which
`DATA:` occurs twice with noise before it. -/
theorem wait_for_response_single_tag_witness :
    containsTag (asciiBytes "xx DATA: 1 DATA: 22") tagDATA = true ∧
    (∃ i, wait_for_response 0 [(1, asciiBytes "xx DATA: 1 DATA: 22")] =
        ("DATA",
          trimAscii (((asciiBytes "xx DATA: 1 DATA: 22").drop i).drop 5)) ∧
      tagDATA.isPrefixOf ((asciiBytes "xx DATA: 1 DATA: 22").drop i) = true ∧
      ∀ j, tagDATA.isPrefixOf ((asciiBytes "xx DATA: 1 DATA: 22").drop j) =
        true → j ≤ i) :=
  ⟨by decide,
    wait_for_response_single_tag 0 1 (asciiBytes "xx DATA: 1 DATA: 22") []
      (asciiBytes "xx DATA: 1 DATA: 22") (tagDATA, ("DATA", 5)) (by decide)
      (by decide) (by decide) (by decide)⟩

/-- C10: when one filtered line carries several distinct tags, the
returned kind follows the fixed test order `OK:`, `WARN:`, `ERROR:`,
`DATA:` of the source's if/elif chain, not the position of the tags in
the line. -/
theorem wait_for_response_priority (timeout t : Nat) (bytes : List Nat)
    (rest : List (Nat × List Nat)) (res : List Nat)
    (hres : read_filterd_bytes bytes = some res) :
    (containsTag res tagOK = true →
      (wait_for_response timeout ((t, bytes) :: rest)).1 = "OK") ∧
    (containsTag res tagOK = false → containsTag res tagWARN = true →
      (wait_for_response timeout ((t, bytes) :: rest)).1 = "WARN") ∧
    (containsTag res tagOK = false → containsTag res tagWARN = false →
      containsTag res tagERROR = true →
      (wait_for_response timeout ((t, bytes) :: rest)).1 = "ERROR") ∧
    (containsTag res tagOK = false → containsTag res tagWARN = false →
      containsTag res tagERROR = false → containsTag res tagDATA = true →
      (wait_for_response timeout ((t, bytes) :: rest)).1 = "DATA") := by
  rw [wait_for_response_cons_some timeout t bytes rest res hres]
  refine ⟨fun h1 => by simp [h1], fun h1 h2 => by simp [h1, h2],
    fun h1 h2 h3 => by simp [h1, h2, h3],
    fun h1 h2 h3 h4 => by simp [h1, h2, h3, h4]⟩

/-- Witness for `wait_for_response_priority`: a line that carries `DATA:`
first and `OK:` later is classified as `OK`. -/
theorem wait_for_response_priority_witness :
    containsTag (asciiBytes "DATA: 42 OK: done") tagDATA = true ∧
    containsTag (asciiBytes "DATA: 42 OK: done") tagOK = true ∧
    (wait_for_response 0 [(1, asciiBytes "DATA: 42 OK: done")]).1 = "OK" :=
  ⟨by decide, by decide,
    (wait_for_response_priority 0 1 (asciiBytes "DATA: 42 OK: done") []
      (asciiBytes "DATA: 42 OK: done") (by decide)).1 (by decide)⟩

/-- C9: a line recognized as `INFO:` never terminates the wait loop: the
loop goes on reading (with the inactivity deadline reset to that line's
time), and every value the loop can return carries one of the kinds
`OK`, `WARN`, `ERROR`, `DATA` — the synthetic timeout being the
`("ERROR", "Timeout")` return. -/
theorem wait_for_response_info_continues :
    (∀ (timeout : Nat) (script : List (Nat × List Nat)),
      (wait_for_response timeout script).1 ∈ ["OK", "WARN", "ERROR", "DATA"]) ∧
    (∀ (timeout t : Nat) (bytes : List Nat) (rest : List (Nat × List Nat))
      (res : List Nat),
      read_filterd_bytes bytes = some res →
      containsTag res tagINFO = true →
      containsTag res tagOK = false → containsTag res tagWARN = false →
      containsTag res tagERROR = false → containsTag res tagDATA = false →
      wait_for_response timeout ((t, bytes) :: rest) =
        wait_for_response t rest) := by
  constructor
  · intro timeout script
    induction script generalizing timeout with
    | nil => simp [wait_for_response]
    | cons hd tl ih =>
      obtain ⟨t, bytes⟩ := hd
      cases h : read_filterd_bytes bytes with
      | some res =>
        rw [wait_for_response_cons_some timeout t bytes tl res h]
        split_ifs with h1 h2 h3 h4
        · simp
        · simp
        · simp
        · simp
        · exact ih t
      | none =>
        rw [wait_for_response_cons_none timeout t bytes tl h]
        split_ifs with h1
        · simp
        · exact ih timeout
  · intro timeout t bytes rest res hres hinfo h1 h2 h3 h4
    rw [wait_for_response_cons_some timeout t bytes rest res hres]
    simp [h1, h2, h3, h4]

/-- Witness for `wait_for_response_info_continues` on a concrete script:
the `INFO:` line at time 1 is skipped and the loop continues on the rest
of the script. -/
theorem wait_for_response_info_continues_witness :
    read_filterd_bytes (asciiBytes "INFO: hello") =
      some (asciiBytes "INFO: hello") ∧
    wait_for_response 0 [(1, asciiBytes "INFO: hello"),
        (2, asciiBytes "OK: done")] =
      wait_for_response 1 [(2, asciiBytes "OK: done")] :=
  ⟨by decide,
    wait_for_response_info_continues.2 0 1 (asciiBytes "INFO: hello")
      [(2, asciiBytes "OK: done")] (asciiBytes "INFO: hello")
      (by decide) (by decide) (by decide) (by decide) (by decide) (by decide)⟩

/-- Counterexample to C2: the loop signals expiry of the inactivity window
by returning the kind string `"ERROR"` with message `"Timeout"` — the very
same kind a device-reported `ERROR:` line produces — not a distinct
`TIMEOUT` kind.  The script holds two reads with no printable content; the
second arrives more than 5 time units after the start. -/
theorem wait_for_response_timeout_kind_counterexample :
    wait_for_response 0 [(3, []), (7, [])] =
      ("ERROR", asciiBytes "Timeout") ∧
    (wait_for_response 0 [(3, []), (7, [])]).1 =
      (wait_for_response 0 [(1, asciiBytes "ERROR: device fault")]).1 := by
  constructor
  · decide
  · decide

/-- C2 amended: when no line with printable content arrives and a read
occurs more than 5 time units after the window start, `wait_for_response`
returns kind `ERROR` with message `"Timeout"` (the timeout is reported
through the `ERROR` kind, distinguished only by its message text). -/
theorem wait_for_response_timeout_amended :
    ∀ (timeout : Nat) (script : List (Nat × List Nat)),
      (∀ e ∈ script, read_filterd_bytes e.2 = none) →
      (∃ e ∈ script, timeout + 5 < e.1) →
      wait_for_response timeout script = ("ERROR", asciiBytes "Timeout") := by
  intro timeout script
  induction script generalizing timeout with
  | nil => intro _ _; rfl
  | cons hd tl ih =>
    intro hnone hex
    obtain ⟨t, bytes⟩ := hd
    have hhd : read_filterd_bytes bytes = none := hnone (t, bytes) (by simp)
    rw [wait_for_response_cons_none timeout t bytes tl hhd]
    by_cases hc : timeout + 5 < t
    · simp [hc]
    · rw [if_neg hc]
      apply ih timeout (fun e he => hnone e (by simp [he]))
      obtain ⟨e, he, hlt⟩ := hex
      rcases List.mem_cons.mp he with rfl | he'
      · exact absurd hlt hc
      · exact ⟨e, he', hlt⟩

/-- Witness for `wait_for_response_timeout_amended`: two tab-only reads
(filtered to nothing), the second at time 8, window start 0. -/
theorem wait_for_response_timeout_amended_witness :
    (∀ e ∈ [((2 : Nat), [(9 : Nat)]), (8, [9])],
      read_filterd_bytes e.2 = none) ∧
    wait_for_response 0 [(2, [9]), (8, [9])] =
      ("ERROR", asciiBytes "Timeout") :=
  ⟨by decide,
    wait_for_response_timeout_amended 0 [(2, [9]), (8, [9])] (by decide)
      ⟨(8, [9]), by simp, by norm_num⟩⟩

/-- Counterexample to C6: an unbroken stream of untagged, non-empty lines
does *not* lead to a timeout 5 time units after the loop's start.  Each
non-empty filtered line resets the inactivity deadline (in the source,
`timeout = time.time()` is guarded only by `if res and len(res) > 0`), so
an `OK:` line arriving at time 12 — long after start + 5 — is still
returned. -/
theorem wait_for_response_window_counterexample :
    wait_for_response 0
        [(2, asciiBytes "boot noise"), (4, asciiBytes "boot noise"),
         (6, asciiBytes "boot noise"), (8, asciiBytes "boot noise"),
         (10, asciiBytes "boot noise"), (12, asciiBytes "OK: ready")] =
      ("OK", asciiBytes "ready") := by decide

/-- C6 amended: the 5-time-unit inactivity window is reset by *every* line
with non-empty printable content, tagged or not; only reads whose filtered
content is empty leave the deadline unchanged, and such a read more than
5 units past the deadline ends the loop with the timeout result. -/
theorem wait_for_response_window_amended :
    (∀ (timeout t : Nat) (bytes : List Nat) (rest : List (Nat × List Nat))
      (res : List Nat),
      read_filterd_bytes bytes = some res →
      containsTag res tagOK = false → containsTag res tagWARN = false →
      containsTag res tagERROR = false → containsTag res tagDATA = false →
      wait_for_response timeout ((t, bytes) :: rest) =
        wait_for_response t rest) ∧
    (∀ (timeout t : Nat) (bytes : List Nat) (rest : List (Nat × List Nat)),
      read_filterd_bytes bytes = none → ¬ (timeout + 5 < t) →
      wait_for_response timeout ((t, bytes) :: rest) =
        wait_for_response timeout rest) ∧
    (∀ (timeout t : Nat) (bytes : List Nat) (rest : List (Nat × List Nat)),
      read_filterd_bytes bytes = none → timeout + 5 < t →
      wait_for_response timeout ((t, bytes) :: rest) =
        ("ERROR", asciiBytes "Timeout")) := by
  refine ⟨fun timeout t bytes rest res hres h1 h2 h3 h4 => ?_,
    fun timeout t bytes rest h hc => ?_,
    fun timeout t bytes rest h hc => ?_⟩
  · rw [wait_for_response_cons_some timeout t bytes rest res hres]
    simp [h1, h2, h3, h4]
  · rw [wait_for_response_cons_none timeout t bytes rest h, if_neg hc]
  · rw [wait_for_response_cons_none timeout t bytes rest h, if_pos hc]

/-- Witness for `wait_for_response_window_amended`: an untagged line at
time 9 (past start + 5) resets the window instead of timing out. -/
theorem wait_for_response_window_amended_witness :
    read_filterd_bytes (asciiBytes "garbage line") =
      some (asciiBytes "garbage line") ∧
    wait_for_response 0 [(9, asciiBytes "garbage line"),
        (10, asciiBytes "OK: go")] =
      wait_for_response 9 [(10, asciiBytes "OK: go")] :=
  ⟨by decide,
    wait_for_response_window_amended.1 0 9 (asciiBytes "garbage line")
      [(10, asciiBytes "OK: go")] (asciiBytes "garbage line")
      (by decide) (by decide) (by decide) (by decide) (by decide)⟩

/-! ## Bulk transfer: the read path (`read_chip`) -/

/-- One device interaction of the read loop: the kind and message of one
`wait_for_response` result, plus — for `DATA` events — the number of
payload bytes the following `ser.read(256)` call yields (at most 256; the
device sends the last block short when the memory size is not a multiple
of 256 and the read returns what arrived before its timeout). -/
structure ReadEv where
  kind : String
  msg : String
  payload : Nat

/-- Outcome of a `read_chip` transfer: bytes written to the output file,
the successive progress percentages printed, whether the serial connection
was closed, and whether the loop ended in the `OK` (success) branch. -/
structure ReadRun where
  written : Nat
  progress : List Nat
  closed : Bool
  finished : Bool

/-- Embedding of the `while True` transfer loop of `read_chip`.  On
`DATA` the source writes the bytes just read, advances `bytes_read` by a
fixed 256 (regardless of how many bytes the read returned), computes
`p = int(bytes_read / mem_size * 100)` and continues; on `OK` it breaks
out successfully; on anything else it reports the error (consuming one
more response for the detail message) and returns.  The `finally` block
closes the output file and the serial connection on every one of these
paths, so `closed` is `true` throughout.  An exhausted script is the
silent device: `wait_for_response` then yields `("ERROR", "Timeout")`,
which lands in the error branch. -/
def read_chip_loop (mem_size : Nat) (bytes_read written : Nat)
    (progress : List Nat) : List ReadEv → ReadRun
  | [] => ⟨written, progress, true, false⟩
  | e :: rest =>
    if e.kind = "DATA" then
      read_chip_loop mem_size (bytes_read + 256) (written + e.payload)
        (progress ++ [(bytes_read + 256) * 100 / mem_size]) rest
    else if e.kind = "OK" then ⟨written, progress, true, true⟩
    else ⟨written, progress, true, false⟩

/-- Embedding of `read_chip` after a successful handshake: counters start
at zero. -/
def read_chip (mem_size : Nat) (script : List ReadEv) : ReadRun :=
  read_chip_loop mem_size 0 0 [] script

/-- The sizes of the successive 256-byte blocks a source of `S` bytes
splits into: `ceil(S / 256)` blocks, all of 256 bytes except a possibly
shorter last one.  This is both what `f.read(256)` yields on a local file
of size `S` and what a device streaming a chip of size `S` sends per
`DATA` event. -/
def chunkSizes (S : Nat) : List Nat :=
  if h : S = 0 then [] else min S 256 :: chunkSizes (S - 256)
termination_by S
decreasing_by omega

lemma chunkSizes_zero : chunkSizes 0 = [] := by
  rw [chunkSizes]; simp

lemma chunkSizes_pos (S : Nat) (h : 0 < S) :
    chunkSizes S = min S 256 :: chunkSizes (S - 256) := by
  rw [chunkSizes, dif_neg (by omega)]

lemma chunkSizes_sum : ∀ S : Nat, (chunkSizes S).sum = S := by
  intro S
  induction S using Nat.strong_induction_on with
  | _ S ih =>
    by_cases h : S = 0
    · subst h; simp [chunkSizes_zero]
    · rw [chunkSizes_pos S (by omega), List.sum_cons, ih (S - 256) (by omega)]
      omega

lemma chunkSizes_length : ∀ S : Nat, (chunkSizes S).length = (S + 255) / 256 := by
  intro S
  induction S using Nat.strong_induction_on with
  | _ S ih =>
    by_cases h : S = 0
    · subst h; simp [chunkSizes_zero]
    · rw [chunkSizes_pos S (by omega), List.length_cons,
        ih (S - 256) (by omega)]
      omega

/-- The device script of C3's scenario: `ceil(S / 256)` `DATA` events
whose reads yield the successive blocks of an `S`-byte image, followed by
one `OK`. -/
def readScript (S : Nat) : List ReadEv :=
  (chunkSizes S).map (fun sz => ⟨"DATA", "", sz⟩) ++ [⟨"OK", "", 0⟩]

lemma read_chip_loop_cons_data (mem br w sz : Nat) (m : String)
    (p : List Nat) (rest : List ReadEv) :
    read_chip_loop mem br w p (⟨"DATA", m, sz⟩ :: rest) =
      read_chip_loop mem (br + 256) (w + sz)
        (p ++ [(br + 256) * 100 / mem]) rest := by
  simp [read_chip_loop]

lemma read_chip_loop_cons_ok (mem br w : Nat) (m : String)
    (p : List Nat) (rest : List ReadEv) :
    read_chip_loop mem br w p (⟨"OK", m, 0⟩ :: rest) = ⟨w, p, true, true⟩ := by
  simp [read_chip_loop]

/-- The list of progress percentages printed over `n` blocks when the
byte counter starts at `br`. -/
def progList (mem br : Nat) : Nat → List Nat
  | 0 => []
  | n + 1 => (br + 256) * 100 / mem :: progList mem (br + 256) n

lemma progList_eq (mem : Nat) :
    ∀ (n br : Nat), progList mem br n =
      (List.range n).map (fun k => (br + 256 * (k + 1)) * 100 / mem) := by
  intro n
  induction n with
  | zero => intro br; simp [progList]
  | succ n ih =>
    intro br
    rw [progList, ih (br + 256), List.range_succ_eq_map, List.map_cons,
      List.map_map]
    rw [List.cons.injEq]
    constructor
    · norm_num
    · apply List.map_congr_left
      intro k _
      simp only [Function.comp_apply, Nat.succ_eq_add_one]
      have h2 : br + 256 + 256 * (k + 1) = br + 256 * (k + 1 + 1) := by ring
      rw [h2]

/-- Running the read loop over a `DATA*, OK` script accumulates the sum of
the payloads and one progress entry per block, with the byte counter
advancing by exactly 256 per block. -/
lemma read_chip_loop_data (mem : Nat) :
    ∀ (sizes : List Nat) (br w : Nat) (p : List Nat),
      read_chip_loop mem br w p
          ((sizes.map fun sz => ⟨"DATA", "", sz⟩) ++ [⟨"OK", "", 0⟩]) =
        ⟨w + sizes.sum, p ++ progList mem br sizes.length, true, true⟩ := by
  intro sizes
  induction sizes with
  | nil =>
    intro br w p
    rw [List.map_nil, List.nil_append, read_chip_loop_cons_ok]
    simp [progList]
  | cons sz tl ih =>
    intro br w p
    rw [List.map_cons, List.cons_append, read_chip_loop_cons_data,
      ih (br + 256) (w + sz) (p ++ [(br + 256) * 100 / mem])]
    simp only [ReadRun.mk.injEq, List.length_cons, progList]
    refine ⟨by simp [List.sum_cons]; omega, ?_, trivial, trivial⟩
    rw [List.append_assoc, List.singleton_append]

/-- Counterexample to C3: for a 300-byte chip the device sends two `DATA`
blocks (256 and 44 bytes) and `OK`; the file receives exactly 300 bytes,
but because `bytes_read` advances by 256 even for the short block, the
reported progress is `[85, 170]` — the final percentage exceeds 100. -/
theorem read_chip_progress_counterexample :
    (read_chip 300 (readScript 300)).written = 300 ∧
    (read_chip 300 (readScript 300)).progress = [85, 170] := by
  have hc : chunkSizes 300 = [256, 44] := by
    rw [chunkSizes_pos 300 (by norm_num)]
    norm_num
    rw [chunkSizes_pos 44 (by norm_num)]
    norm_num
    exact chunkSizes_zero
  have hrun := read_chip_loop_data 300 (chunkSizes 300) 0 0 []
  rw [hc] at hrun
  unfold read_chip readScript
  rw [hc, hrun]
  constructor <;> decide

/-- C3 amended: for a chip of size `S > 0` with the device emitting
`ceil(S / 256)` `DATA` events (last block possibly short) and one `OK`,
`read_chip` writes exactly `S` bytes, finishes successfully, and the
progress percentages are monotonically non-decreasing; they are bounded by
100 when 256 divides `S`, while for other sizes the final value may exceed
100 (the byte counter advances by a full 256 per block). -/
theorem read_chip_transfer_amended (S : Nat) (hS : 0 < S) :
    (read_chip S (readScript S)).written = S ∧
    (read_chip S (readScript S)).finished = true ∧
    List.Pairwise (· ≤ ·) (read_chip S (readScript S)).progress ∧
    (256 ∣ S → ∀ q ∈ (read_chip S (readScript S)).progress, q ≤ 100) := by
  have hrun : read_chip S (readScript S) =
      ⟨0 + (chunkSizes S).sum, [] ++ progList S 0 (chunkSizes S).length,
       true, true⟩ :=
    read_chip_loop_data S (chunkSizes S) 0 0 []
  rw [hrun]
  simp only [Nat.zero_add, List.nil_append, chunkSizes_sum, chunkSizes_length,
    progList_eq]
  refine ⟨by simp [chunkSizes_sum], by simp, ?_, ?_⟩
  · refine List.Pairwise.map _ (fun a b hab => ?_)
      (List.pairwise_lt_range _)
    exact Nat.div_le_div_right (by omega)
  · rintro ⟨m, rfl⟩ q hq
    obtain ⟨k, hk, rfl⟩ := List.mem_map.mp hq
    have hkm : k < m := by
      have := List.mem_range.mp hk
      omega
    have hnum : 256 * (k + 1) * 100 ≤ 100 * (256 * m) := by omega
    calc 256 * (k + 1) * 100 / (256 * m)
        ≤ 100 * (256 * m) / (256 * m) := Nat.div_le_div_right hnum
      _ = 100 := Nat.mul_div_cancel 100 (by omega)

/-- Witness for `read_chip_transfer_amended` at `S = 512`. -/
theorem read_chip_transfer_amended_witness :
    0 < 512 ∧ (read_chip 512 (readScript 512)).written = 512 :=
  ⟨by norm_num, (read_chip_transfer_amended 512 (by norm_num)).1⟩

/-! ## Bulk transfer: the write path (`write_chip`) -/

/-- Outcome of a `write_chip` transfer loop: the lengths of the framed
blocks sent (each is transmitted as a 2-byte big-endian length prefix
`len(data).to_bytes(2)` followed by the block bytes), whether the
zero-length 2-byte terminator frame was sent, the final `bytes_sent`
counter, whether the serial connection was closed, and which exit the
loop took (`"eof"` for the end-of-file return, `"done"` for the
`bytes_sent == mem_size` break, `"error"` for the error return). -/
structure WriteRun where
  frames : List Nat
  terminator : Bool
  bytes_sent : Nat
  closed : Bool
  outcome : String
deriving DecidableEq

/-- Embedding of the block loop of `write_chip`.  `remaining` is the
number of still-unread bytes of the input file, so `f.read(256)` yields
`min remaining 256` bytes; `resps` is the script of kinds that successive
`wait_for_response` calls return (one per sent block; an exhausted script
is the silent device, whose `("ERROR", "Timeout")` result takes the
error branch because it is neither `OK` nor advances the counter —
mirroring the source, where such a response falls past both branches to
the `bytes_sent == mem_size` test with an unchanged counter: faithfully,
a non-`OK`, non-`ERROR` kind such as `WARN` continues the loop).  No
branch of the source closes the serial connection, so `closed` is `false`
on every path. -/
def write_chip_loop (mem_size : Nat) (remaining bytes_sent : Nat)
    (frames : List Nat) (resps : List String) : WriteRun :=
  if remaining = 0 then
    ⟨frames, true, bytes_sent, false, "eof"⟩
  else
    match resps with
    | [] => ⟨frames ++ [min remaining 256], false, bytes_sent, false, "error"⟩
    | r :: rs =>
      if r = "OK" then
        if bytes_sent + min remaining 256 = mem_size then
          ⟨frames ++ [min remaining 256], false,
            bytes_sent + min remaining 256, false, "done"⟩
        else
          write_chip_loop mem_size (remaining - min remaining 256)
            (bytes_sent + min remaining 256)
            (frames ++ [min remaining 256]) rs
      else if r = "ERROR" then
        ⟨frames ++ [min remaining 256], false, bytes_sent, false, "error"⟩
      else
        if bytes_sent = mem_size then
          ⟨frames ++ [min remaining 256], false, bytes_sent, false, "done"⟩
        else
          write_chip_loop mem_size (remaining - min remaining 256)
            bytes_sent (frames ++ [min remaining 256]) rs
termination_by remaining
decreasing_by all_goals omega

/-- Embedding of `write_chip` after a successful handshake, for an input
file of `file_size` bytes: counters start at zero. -/
def write_chip (mem_size file_size : Nat) (resps : List String) : WriteRun :=
  write_chip_loop mem_size file_size 0 [] resps

lemma write_chip_loop_zero (mem bs : Nat) (frames : List Nat)
    (resps : List String) :
    write_chip_loop mem 0 bs frames resps = ⟨frames, true, bs, false, "eof"⟩ := by
  rw [write_chip_loop.eq_def]
  simp

lemma write_chip_loop_ok_break (mem remaining bs : Nat) (frames : List Nat)
    (rs : List String) (hz : remaining ≠ 0)
    (hb : bs + min remaining 256 = mem) :
    write_chip_loop mem remaining bs frames ("OK" :: rs) =
      ⟨frames ++ [min remaining 256], false, bs + min remaining 256,
        false, "done"⟩ := by
  rw [write_chip_loop.eq_def]
  simp [hz, hb]

lemma write_chip_loop_ok_cont (mem remaining bs : Nat) (frames : List Nat)
    (rs : List String) (hz : remaining ≠ 0)
    (hb : bs + min remaining 256 ≠ mem) :
    write_chip_loop mem remaining bs frames ("OK" :: rs) =
      write_chip_loop mem (remaining - min remaining 256)
        (bs + min remaining 256) (frames ++ [min remaining 256]) rs := by
  rw [write_chip_loop.eq_def]
  simp [hz, hb]

/-- Behaviour of the write loop when the device acknowledges every block
with `OK` and enough responses are scripted: it sends exactly the
256-byte split of the remaining bytes, breaking without a terminator when
the counter reaches the memory size and sending the terminator when the
file is exhausted first. -/
lemma write_chip_loop_all_ok (mem : Nat) :
    ∀ (resps : List String) (remaining bs : Nat) (frames : List Nat),
      (∀ r ∈ resps, r = "OK") →
      (remaining + 255) / 256 ≤ resps.length →
      ((bs + remaining = mem → 0 < remaining →
        write_chip_loop mem remaining bs frames resps =
          ⟨frames ++ chunkSizes remaining, false, mem, false, "done"⟩) ∧
       (bs + remaining < mem →
        write_chip_loop mem remaining bs frames resps =
          ⟨frames ++ chunkSizes remaining, true, bs + remaining,
            false, "eof"⟩)) := by
  intro resps
  induction resps with
  | nil =>
    intro remaining bs frames _ hlen
    have hz : remaining = 0 := by
      simp only [List.length_nil] at hlen
      omega
    subst hz
    constructor
    · intro _ h
      omega
    · intro _
      rw [write_chip_loop_zero, chunkSizes_zero]
      simp
  | cons r rs ih =>
    intro remaining bs frames hall hlen
    have hr : r = "OK" := hall r (by simp)
    subst hr
    by_cases hz : remaining = 0
    · subst hz
      constructor
      · intro _ h
        omega
      · intro _
        rw [write_chip_loop_zero, chunkSizes_zero]
        simp
    · have hall' : ∀ x ∈ rs, x = "OK" := fun x hx => hall x (by simp [hx])
      have hlen' : (remaining - min remaining 256 + 255) / 256 ≤ rs.length := by
        simp only [List.length_cons] at hlen
        omega
      have hsub : remaining - min remaining 256 = remaining - 256 := by omega
      constructor
      · intro hsum hpos
        by_cases hb : remaining ≤ 256
        · have hblock : min remaining 256 = remaining := by omega
          rw [write_chip_loop_ok_break mem remaining bs frames rs hz
            (by omega)]
          have hcs : chunkSizes remaining = [remaining] := by
            rw [chunkSizes_pos remaining (by omega),
              show remaining - 256 = 0 by omega, chunkSizes_zero, hblock]
          rw [hcs, hblock, hsum]
        · have hblock : min remaining 256 = 256 := by omega
          rw [write_chip_loop_ok_cont mem remaining bs frames rs hz
            (by omega)]
          have hrec := (ih (remaining - min remaining 256)
            (bs + min remaining 256)
            (frames ++ [min remaining 256]) hall' hlen').1
            (by omega) (by omega)
          rw [hrec, hsub, chunkSizes_pos remaining (by omega), hblock,
            List.append_assoc, List.singleton_append]
      · intro hlt
        rw [write_chip_loop_ok_cont mem remaining bs frames rs hz
          (by omega)]
        have hrec := (ih (remaining - min remaining 256)
          (bs + min remaining 256)
          (frames ++ [min remaining 256]) hall' hlen').2 (by omega)
        rw [hrec, hsub, chunkSizes_pos remaining (by omega),
          List.append_assoc, List.singleton_append,
          show bs + min remaining 256 + (remaining - 256) = bs + remaining
            from by omega]

/-- C5: with every block acknowledged `OK`, a local source of `S` bytes
against a declared memory size `M` is sent as `ceil(S / 256)`
length-prefixed blocks (256 bytes each except a possibly shorter last
one); when `S < M` the loop reaches end-of-file and sends the 2-byte
zero-length terminator, while when `S = M > 0` the loop breaks as soon as
the cumulative count equals the memory size, without sending the
terminator. -/
theorem write_chip_blocks (S M : Nat) (resps : List String)
    (hok : ∀ r ∈ resps, r = "OK")
    (hlen : (S + 255) / 256 ≤ resps.length) :
    (S < M →
      write_chip M S resps = ⟨chunkSizes S, true, S, false, "eof"⟩) ∧
    (S = M → 0 < S →
      write_chip M S resps = ⟨chunkSizes S, false, M, false, "done"⟩) ∧
    (chunkSizes S).length = (S + 255) / 256 ∧
    (chunkSizes S).sum = S := by
  have h := write_chip_loop_all_ok M resps S 0 [] hok hlen
  refine ⟨fun hlt => ?_, fun heq hpos => ?_, chunkSizes_length S,
    chunkSizes_sum S⟩
  · have h2 := h.2 (by omega)
    unfold write_chip
    rw [h2]
    simp
  · have h1 := h.1 (by omega) hpos
    unfold write_chip
    rw [h1]
    simp

/-- Witness for `write_chip_blocks`: a 512-byte file written to a
512-byte chip with two `OK` acknowledgements breaks without the
terminator after two 256-byte frames. -/
theorem write_chip_blocks_witness :
    (∀ r ∈ ["OK", "OK"], r = "OK") ∧
    write_chip 512 512 ["OK", "OK"] =
      ⟨chunkSizes 512, false, 512, false, "done"⟩ :=
  ⟨by decide,
    (write_chip_blocks 512 512 ["OK", "OK"] (by decide) (by norm_num)).2.1
      rfl (by norm_num)⟩

/-! ## Session operations and connection lifecycle -/

/-- What a session operation leaves behind: the strings written to the
serial port after the handshake, and whether `ser.close()` was ever
called on the connection. -/
structure SessionRun where
  writes : List String
  closed : Bool
deriving DecidableEq

/-- Embedding of the `while (t := wait_for_response(ser))[0] == "DATA"`
loop of `read_voltage`: each `DATA` measurement is printed and
acknowledged with a serial write of `"OK"`; the first non-`DATA` response
ends the loop and the function returns.  No path calls `ser.close()`.
An exhausted script is the silent device, whose `("ERROR", "Timeout")`
result is non-`DATA` and ends the loop the same way. -/
def read_voltage_loop (writes : List String) :
    List (String × String) → SessionRun
  | [] => ⟨writes, false⟩
  | (k, _) :: rest =>
    if k = "DATA" then read_voltage_loop (writes ++ ["OK"]) rest
    else ⟨writes, false⟩

/-- Embedding of `read_voltage` after a successful handshake: it first
writes `"OK"`, then runs the measurement loop. -/
def read_voltage (script : List (String × String)) : SessionRun :=
  read_voltage_loop ["OK"] script

/-- Embedding of `rurp_config` after a successful handshake: it writes
`"OK\n"`, waits for one response, prints either the configuration or the
response kind, and returns without calling `ser.close()`. -/
def rurp_config (resp : String × String) : SessionRun :=
  ⟨["OK\n"], false⟩

/-- The message `rurp_config` prints for its single response. -/
def rurp_config_printed (resp : String × String) : String :=
  if resp.1 = "OK" then "Config: " ++ resp.2 else resp.1

/-- Embedding of the connection lifecycle of `firmware_check` after a
successful handshake: it writes `"OK"`, waits for one response, and calls
`ser.close()` unconditionally before branching on the response kind, so
the connection is closed on this path regardless of the response. -/
def firmware_check (resp : String × String) : SessionRun :=
  ⟨["OK"], true⟩

lemma read_chip_loop_closed (mem : Nat) :
    ∀ (script : List ReadEv) (br w : Nat) (p : List Nat),
      (read_chip_loop mem br w p script).closed = true := by
  intro script
  induction script with
  | nil => intro br w p; rfl
  | cons e rest ih =>
    intro br w p
    show (read_chip_loop mem br w p (e :: rest)).closed = true
    rw [read_chip_loop]
    split_ifs
    · exact ih _ _ _
    · rfl
    · rfl

lemma write_chip_loop_closed (mem : Nat) :
    ∀ (remaining bs : Nat) (frames : List Nat) (resps : List String),
      (write_chip_loop mem remaining bs frames resps).closed = false := by
  intro remaining
  induction remaining using Nat.strong_induction_on with
  | _ remaining ih =>
    intro bs frames resps
    by_cases hz : remaining = 0
    · subst hz
      rw [write_chip_loop_zero]
    · rw [write_chip_loop.eq_def, if_neg hz]
      split
      · rfl
      · split_ifs
        · rfl
        · exact ih (remaining - min remaining 256) (by omega) _ _ _
        · rfl
        · rfl
        · exact ih (remaining - min remaining 256) (by omega) _ _ _

lemma read_voltage_loop_closed :
    ∀ (script : List (String × String)) (writes : List String),
      (read_voltage_loop writes script).closed = false := by
  intro script
  induction script with
  | nil => intro writes; rfl
  | cons e rest ih =>
    intro writes
    obtain ⟨k, m⟩ := e
    show (read_voltage_loop writes ((k, m) :: rest)).closed = false
    rw [read_voltage_loop]
    split_ifs
    · exact ih _
    · rfl

/-- Counterexample to C1: a `read_voltage` invocation that obtains a
connection, receives one measurement and a normal `OK` end-of-data
response, completes without the connection ever being closed — the
source of `read_voltage` contains no `ser.close()` call on any path. -/
theorem read_voltage_not_closed_counterexample :
    (read_voltage [("DATA", "1.25"), ("OK", "done")]).closed = false ∧
    (read_voltage [("DATA", "1.25"), ("OK", "done")]).writes =
      ["OK", "OK"] := by
  constructor <;> decide

/-- C1 amended: of the five commands that obtain a connection through the
handshake, only `read_chip` (whose `finally` block runs on every exit of
its transfer loop) and `firmware_check` (which closes right after reading
the version response) release the connection; `read_voltage`,
`write_chip` and `rurp_config` never call `ser.close()` on any path. -/
theorem connection_closed_amended :
    (∀ (mem : Nat) (script : List ReadEv),
      (read_chip mem script).closed = true) ∧
    (∀ resp : String × String, (firmware_check resp).closed = true) ∧
    (∀ script : List (String × String),
      (read_voltage script).closed = false) ∧
    (∀ (M S : Nat) (resps : List String),
      (write_chip M S resps).closed = false) ∧
    (∀ resp : String × String, (rurp_config resp).closed = false) := by
  refine ⟨fun mem script => ?_, fun resp => rfl,
    fun script => ?_, fun M S resps => ?_, fun resp => rfl⟩
  · exact read_chip_loop_closed mem script 0 0 []
  · exact read_voltage_loop_closed script ["OK"]
  · exact write_chip_loop_closed M S 0 [] resps

/-! ## Port discovery and handshake (`check_port`, `find_programmer`) -/

/-- One candidate serial port as the discovery loop sees it: its name,
whether `serial.Serial(port, ...)` succeeds (an `OSError` or
`SerialException` is swallowed and the port skipped), and the
`wait_for_response` result of the handshake probe sent on it. -/
structure PortSim where
  id : String
  openOk : Bool
  resp : String × String
deriving DecidableEq

/-- Embedding of `check_port`: open the port, send the envelope, wait for
one response; return the open connection if the result kind is `OK`,
otherwise print the diagnostic message and return `None` — the source
does *not* close the port on that path. -/
def check_port (p : PortSim) : Option String :=
  if p.openOk then
    (if p.resp.1 = "OK" then some p.id else none)
  else none

/-- Result of one `find_programmer` run: the port of the returned open
connection (if any), the port persisted to the configuration by
`config["port"] = port; save_config()` (if any), and the ports that were
opened during discovery, answered something other than `OK`, and were
left open behind (no `ser.close()` in `check_port`'s failure path). -/
structure DiscoveryRun where
  connection : Option String
  persisted : Option String
  leftOpen : List String
deriving DecidableEq

/-- Embedding of `find_programmer`: try each candidate port in order with
`check_port`; on the first success persist that port and return the
still-open connection. -/
def find_programmer : List PortSim → DiscoveryRun
  | [] => ⟨none, none, []⟩
  | p :: rest =>
    match check_port p with
    | some c => ⟨some c, some p.id, []⟩
    | none =>
      let r := find_programmer rest
      ⟨r.connection, r.persisted,
        (if p.openOk then [p.id] else []) ++ r.leftOpen⟩

/-- Counterexample to C4: with two candidate ports where the first opens
and answers `ERROR` and the second answers `OK`, the second is selected
and persisted as the claim says — but the first port's transport is left
open, not closed: `check_port` prints the diagnostic and returns without
any `ser.close()`. -/
theorem find_programmer_counterexample :
    find_programmer
        [⟨"COM3", true, ("ERROR", "handshake failed")⟩,
         ⟨"COM4", true, ("OK", "")⟩] =
      ⟨some "COM4", some "COM4", ["COM3"]⟩ := by decide

/-- C4 amended: `find_programmer` tries the candidate ports in order; a
port whose first response is not `OK` has its diagnostic printed and the
next candidate is tried, with the failed port's transport left open (it
is not closed); the first port answering `OK` is persisted for future
discovery and its still-open connection is returned. -/
theorem find_programmer_amended (pre : List PortSim) (p : PortSim)
    (post : List PortSim)
    (hpre : ∀ q ∈ pre, q.openOk = false ∨ q.resp.1 ≠ "OK")
    (hopen : p.openOk = true) (hresp : p.resp.1 = "OK") :
    find_programmer (pre ++ p :: post) =
      ⟨some p.id, some p.id,
        (pre.filter (fun q => q.openOk)).map (fun q => q.id)⟩ := by
  induction pre with
  | nil =>
    have hcp : check_port p = some p.id := by
      simp [check_port, hopen, hresp]
    simp [find_programmer, hcp]
  | cons q qs ih =>
    have hq := hpre q (by simp)
    have hcq : check_port q = none := by
      rcases hq with h | h
      · simp [check_port, h]
      · cases hqo : q.openOk with
        | false => simp [check_port, hqo]
        | true => simp [check_port, hqo, h]
    rw [List.cons_append]
    rw [show find_programmer (q :: (qs ++ p :: post)) =
        ⟨(find_programmer (qs ++ p :: post)).connection,
         (find_programmer (qs ++ p :: post)).persisted,
         (if q.openOk then [q.id] else []) ++
           (find_programmer (qs ++ p :: post)).leftOpen⟩ from by
      rw [find_programmer.eq_def]
      simp [hcq]]
    rw [ih (fun x hx => hpre x (by simp [hx]))]
    cases hqo : q.openOk with
    | false => simp [List.filter_cons, hqo]
    | true => simp [List.filter_cons, hqo]

/-- Witness for `find_programmer_amended`: the first candidate fails to
open at all, the second opens and answers `OK`. -/
theorem find_programmer_amended_witness :
    (∀ q ∈ [(⟨"COM7", false, ("OK", "")⟩ : PortSim)],
      q.openOk = false ∨ q.resp.1 ≠ "OK") ∧
    find_programmer
        [⟨"COM7", false, ("OK", "")⟩, ⟨"COM8", true, ("OK", "ack")⟩] =
      ⟨some "COM8", some "COM8", []⟩ := by
  refine ⟨by decide, ?_⟩
  have h := find_programmer_amended [⟨"COM7", false, ("OK", "")⟩]
    ⟨"COM8", true, ("OK", "ack")⟩ [] (by decide) rfl rfl
  simpa using h

/-! ## Firmware version comparison (`firmware_check`, lines 265-279) -/

/-- Embedding of Python's `str.split(".")`: splitting on the dot
character, keeping empty groups. -/
def splitOnDot : List Char → List (List Char)
  | [] => [[]]
  | c :: rest =>
    if c = '.' then [] :: splitOnDot rest
    else
      match splitOnDot rest with
      | [] => [[c]]
      | g :: gs => (c :: g) :: gs

/-- The numeric value of a decimal digit character, `none` otherwise. -/
def digitVal? (c : Char) : Option Nat :=
  if '0' ≤ c ∧ c ≤ '9' then some (c.toNat - 48) else none

/-- Embedding of Python's `int(s)` restricted to the plain unsigned
decimal strings version components are: `none` (an exception in the
source) on an empty string or any non-digit character. -/
def parseIntDigits? (s : List Char) : Option Nat :=
  if s.isEmpty then none
  else
    s.foldl (fun acc c =>
      match acc, digitVal? c with
      | some a, some d => some (a * 10 + d)
      | _, _ => none) (some 0)

/-- Embedding of the version comparison of `firmware_check`: both strings
are unpacked as `major, minor, patch = version.split(".")` (an exception
— `none` — unless there are exactly three components), each component is
converted with `int(...)`, and an update is available exactly when
`int(major) < int(major_l) or int(minor) < int(minor_l) or
int(patch) < int(patch_l)`. -/
def firmware_update_available (version latest : List Char) : Option Bool :=
  match splitOnDot version, splitOnDot latest with
  | [major, minor, patch], [major_l, minor_l, patch_l] =>
    match parseIntDigits? major, parseIntDigits? minor,
      parseIntDigits? patch, parseIntDigits? major_l,
      parseIntDigits? minor_l, parseIntDigits? patch_l with
    | some a, some b, some c, some d, some e, some f =>
      some (decide (a < d) || decide (b < e) || decide (c < f))
    | _, _, _, _, _, _ => none
  | _, _ => none

/-- C7: the firmware version comparison parses both versions as
`major.minor.patch`, compares componentwise as integers — not lexically —
and reports an update exactly when some component of the installed
version is strictly below the corresponding latest component:
`1.2.3` vs `1.3.0` and `1.9.0` vs `1.10.0` report an update,
`2.0.0` vs `2.0.0` does not. -/
theorem firmware_version_comparison :
    firmware_update_available "1.2.3".toList "1.3.0".toList = some true ∧
    firmware_update_available "2.0.0".toList "2.0.0".toList = some false ∧
    firmware_update_available "1.9.0".toList "1.10.0".toList = some true ∧
    (∀ (v l x y z x2 y2 z2 : List Char) (a b c d e f : Nat),
      splitOnDot v = [x, y, z] → splitOnDot l = [x2, y2, z2] →
      parseIntDigits? x = some a → parseIntDigits? y = some b →
      parseIntDigits? z = some c → parseIntDigits? x2 = some d →
      parseIntDigits? y2 = some e → parseIntDigits? z2 = some f →
      (firmware_update_available v l = some true ↔
        a < d ∨ b < e ∨ c < f)) := by
  refine ⟨by decide, by decide, by decide, ?_⟩
  intro v l x y z x2 y2 z2 a b c d e f hv hl ha hb hc hd he hf
  simp only [firmware_update_available, hv, hl, ha, hb, hc, hd, he, hf,
    Option.some.injEq, Bool.or_eq_true, decide_eq_true_eq]
  tauto

/-- Witness for the general component of `firmware_version_comparison`
at the concrete pair `0.0.1` vs `0.0.2`. -/
theorem firmware_version_comparison_witness :
    splitOnDot "0.0.1".toList = [['0'], ['0'], ['1']] ∧
    (firmware_update_available "0.0.1".toList "0.0.2".toList = some true ↔
      (0 < 0 ∨ 0 < 0 ∨ 1 < 2)) :=
  ⟨by decide,
    firmware_version_comparison.2.2.2 "0.0.1".toList "0.0.2".toList
      ['0'] ['0'] ['1'] ['0'] ['0'] ['2'] 0 0 1 0 0 2
      (by decide) (by decide) (by decide) (by decide) (by decide)
      (by decide) (by decide) (by decide)⟩

end Firestarter
